import Mathlib

/-!
Verification of the Oslo cargo flight tracker (src/script.js).

The development shallowly embeds the script's pure core:
* a model of the JavaScript string primitives the script uses
  (trim, toUpperCase, toLowerCase, includes, truthiness);
* a model of the DOM documents produced by DOMParser.parseFromString
  (element trees with attributes and text content) together with the
  two DOM accessors the script calls, getElementsByTagName and
  getAttribute, and textContent;
* the script's functions parseAirlineNames, parseFlights,
  formatLocalTime, getStatusDescription, isCargoFlight, renderFlights
  and loadFlights, translated line by line.

External collaborators (Intl date formatting and Date.parse) are
modelled as components of a JsEnv record: the script only pipes their
outputs through, so every theorem below is stated for an arbitrary
environment.  DOMParser.parseFromString itself is total: it never
throws, and on an unparseable payload it yields a document whose root
is a parsererror element (containing no flight or airlineName
elements); documents below therefore stand for the output of that
parse, and an unparseable payload is represented by such a
parsererror document.
-/

/-! ### JavaScript string primitives -/

/-- Code points removed by String.prototype.trim: the WhiteSpace and
LineTerminator sets (tab, LF, VT, FF, CR, space, NBSP, Ogham space,
the en-quad..hair-space range, LS, PS, narrow NBSP, MMSP, ideographic
space, ZWNBSP). -/
def jsWhitespaceCodes : List Nat :=
  [9, 10, 11, 12, 13, 32, 160, 0x1680,
   0x2000, 0x2001, 0x2002, 0x2003, 0x2004, 0x2005, 0x2006, 0x2007,
   0x2008, 0x2009, 0x200a, 0x2028, 0x2029, 0x202f, 0x205f, 0x3000, 0xfeff]

/-- Whether a character is JavaScript whitespace (for trim). -/
def jsWs (c : Char) : Bool := jsWhitespaceCodes.contains c.toNat

/-- The lowercase/uppercase letter pairs of the Basic Latin range, the
alphabet that the feed codes and the static configuration use. -/
def asciiCasePairs : List (Char × Char) :=
  [('a', 'A'), ('b', 'B'), ('c', 'C'), ('d', 'D'), ('e', 'E'), ('f', 'F'),
   ('g', 'G'), ('h', 'H'), ('i', 'I'), ('j', 'J'), ('k', 'K'), ('l', 'L'),
   ('m', 'M'), ('n', 'N'), ('o', 'O'), ('p', 'P'), ('q', 'Q'), ('r', 'R'),
   ('s', 'S'), ('t', 'T'), ('u', 'U'), ('v', 'V'), ('w', 'W'), ('x', 'X'),
   ('y', 'Y'), ('z', 'Z')]

/-- Model of the per-character effect of String.prototype.toUpperCase. -/
def jsCharUpper (c : Char) : Char :=
  ((asciiCasePairs.find? (fun p => p.1 == c)).map (fun p => p.2)).getD c

/-- Model of the per-character effect of String.prototype.toLowerCase. -/
def jsCharLower (c : Char) : Char :=
  ((asciiCasePairs.find? (fun p => p.1 == c)).map (fun p => p.1)).getD
    (((asciiCasePairs.find? (fun p => p.2 == c)).map (fun p => p.1)).getD c)

/-- Model of String.prototype.toUpperCase. -/
def jsToUpper (s : String) : String := String.mk (s.data.map jsCharUpper)

/-- Model of String.prototype.toLowerCase. -/
def jsToLower (s : String) : String := String.mk (s.data.map jsCharLower)

/-- Model of String.prototype.trim: drop whitespace from both ends. -/
def jsTrim (s : String) : String :=
  String.mk (((s.data.dropWhile jsWs).reverse.dropWhile jsWs).reverse)

/-- Model of String.prototype.includes: substring containment. -/
def jsIncludes (s sub : String) : Bool := decide (sub.data <:+: s.data)

/-- JavaScript truthiness of a nullable string: null and the empty
string are falsy. -/
def jsTruthy : Option String → Bool
  | none => false
  | some s => !(s == "")

/-- The JavaScript expression nullableString or-else fallback, as in
airlinesMap[flight.airline] or-else flight.airline: the fallback is
taken when the left side is null or the empty string. -/
def jsOrElse (o : Option String) (fallback : String) : String :=
  match o with
  | none => fallback
  | some s => if s == "" then fallback else s

/-! ### DOM document model

A document, as produced by DOMParser.parseFromString, is a forest of
nodes; an element node carries its tag name, its attribute list and
its children.  getElementsByTagName returns the matching descendant
elements in tree order, and textContent concatenates the text nodes
of a subtree. -/

mutual
inductive XmlNode where
  | elem (tag : String) (attrs : List (String × String)) (children : XmlForest)
  | text (s : String)
inductive XmlForest where
  | nil
  | cons (n : XmlNode) (ns : XmlForest)
end

/-- Build a forest from a list of nodes (concrete documents are easier
to write as lists). -/
def XmlForest.ofList : List XmlNode → XmlForest
  | [] => XmlForest.nil
  | n :: ns => XmlForest.cons n (XmlForest.ofList ns)

mutual
/-- The elements with the given tag in the subtree rooted at a node
(the node itself included when it matches), in tree order. -/
def elemsByTagN (tag : String) : XmlNode → List XmlNode
  | XmlNode.text _ => []
  | XmlNode.elem t a cs =>
      (if t = tag then [XmlNode.elem t a cs] else []) ++ elemsByTagF tag cs
/-- The elements with the given tag in a forest, in tree order. -/
def elemsByTagF (tag : String) : XmlForest → List XmlNode
  | XmlForest.nil => []
  | XmlForest.cons n ns => elemsByTagN tag n ++ elemsByTagF tag ns
end

mutual
/-- Model of Node.textContent on one node. -/
def textContentN : XmlNode → String
  | XmlNode.text s => s
  | XmlNode.elem _ _ cs => textContentF cs
/-- Model of Node.textContent over a forest of children. -/
def textContentF : XmlForest → String
  | XmlForest.nil => ""
  | XmlForest.cons n ns => textContentN n ++ textContentF ns
end

/-- Model of Element.getAttribute: the attribute's value, or null when
the attribute is absent (or the node is not an element). -/
def getAttr (n : XmlNode) (name : String) : Option String :=
  match n with
  | XmlNode.text _ => none
  | XmlNode.elem _ attrs _ => (attrs.find? (fun p => p.1 == name)).map (fun p => p.2)

/-- Model of element.getElementsByTagName(tag): the matching proper
descendants of the element, in tree order. -/
def childElemsByTag (n : XmlNode) (tag : String) : List XmlNode :=
  match n with
  | XmlNode.text _ => []
  | XmlNode.elem _ _ cs => elemsByTagF tag cs

/-- Model of document.getElementsByTagName(tag) on a whole document. -/
def docElemsByTag (doc : XmlForest) (tag : String) : List XmlNode :=
  elemsByTagF tag doc

/-- The document DOMParser.parseFromString yields for a payload that is
not well-formed XML: a parsererror element wrapping the diagnostic
text.  It contains no flight and no airlineName elements. -/
def parseErrorDoc : XmlForest :=
  XmlForest.ofList
    [XmlNode.elem "parsererror" []
      (XmlForest.ofList [XmlNode.text "XML parsing error"])]

/-! ### The script's parsers (src/script.js lines 25-70) -/

/-- Embedding of one iteration of the parseAirlineNames loop
(script.js lines 30-36): when the element's code and name attributes
are both present and non-empty (truthy), bind uppercase(code) to name
in the accumulated map, overwriting any earlier binding of that key;
otherwise leave the map unchanged. -/
def insertAirline (m : String → Option String) (el : XmlNode) : String → Option String :=
  match getAttr el "code", getAttr el "name" with
  | some c, some n =>
      if c ≠ "" ∧ n ≠ "" then
        fun k => if k = jsToUpper c then some n else m k
      else m
  | _, _ => m

/-- Embedding of parseAirlineNames (script.js lines 25-38): fold the
airlineName elements into a map from uppercased code to name.  The map
is modelled as a function from key to optional value, matching the
script's use of a fresh plain object with only string-indexed reads
and writes. -/
def parseAirlineNames (doc : XmlForest) : String → Option String :=
  (docElemsByTag doc "airlineName").foldl insertAirline (fun _ => none)

/-- One parsed flight record (the object literal of script.js
lines 59-67).  statusCode and statusTime are null when the status
sub-element, or its attribute, is absent. -/
structure FlightRecord where
  airline : String
  flightId : String
  scheduleTime : String
  arrDep : String
  otherAirport : String
  statusCode : Option String
  statusTime : Option String
deriving DecidableEq, Repr

/-- Embedding of the getText helper inside parseFlights (script.js
lines 47-50): the trimmed text content of the first descendant with
the given tag, or the empty string when there is none. -/
def getText (f : XmlNode) (tag : String) : String :=
  match (childElemsByTag f tag).head? with
  | none => ""
  | some el => jsTrim (textContentN el)

/-- Embedding of one iteration of the parseFlights loop (script.js
lines 45-67): build the record for one flight element. -/
def parseFlightElem (f : XmlNode) : FlightRecord :=
  let statusEl := (childElemsByTag f "status").head?
  { airline := jsToUpper (getText f "airline")
    flightId := getText f "flight_id"
    scheduleTime := getText f "schedule_time"
    arrDep := getText f "arr_dep"
    otherAirport := getText f "airport"
    statusCode := statusEl.bind (fun el => getAttr el "code")
    statusTime := statusEl.bind (fun el => getAttr el "time") }

/-- Embedding of parseFlights (script.js lines 40-70): one record per
flight element of the document, in feed order. -/
def parseFlights (doc : XmlForest) : List FlightRecord :=
  (docElemsByTag doc "flight").map parseFlightElem

/-- The observable outcome of calling parseFlights as a JavaScript
function: a returned value or a thrown exception.  Every operation in
its body is total - parseFromString returns a document for every
input, the element lookups are guarded before dereferencing, and
getAttribute and trim cannot throw - so the call always returns
normally with the parsed list. -/
def parseFlightsCall (doc : XmlForest) : Except String (List FlightRecord) :=
  Except.ok (parseFlights doc)

/-! ### Static configuration (script.js lines 9-16) -/

/-- The static cargo carrier code list (script.js lines 9-12). -/
def CARGO_CODES : List String :=
  ["UPS", "5X", "BCS", "ES", "QY", "D0", "APF", "HP", "QAF", "Q7", "QR"]

/-- The cargo keyword list (script.js lines 13-16). -/
def CARGO_KEYWORDS : List String :=
  ["cargo", "dhl", "ups", "amapola", "qatar", "freight", "postal"]

/-! ### External collaborators

Intl.DateTimeFormat and Date are outside the script; the theorems are
stated over an arbitrary environment supplying their outputs. -/

/-- The two external collaborators the script consults:
intlOsloFormat is the day-month-hour-minute string the configured
Intl.DateTimeFormat produces for a timestamp, and dateValue is the
numeric value of new Date(s) used by the sort comparator. -/
structure JsEnv where
  intlOsloFormat : String → String
  dateValue : String → Int

/-! ### Formatter and classifier (script.js lines 72-114) -/

/-- Embedding of formatLocalTime (script.js lines 72-89): empty input
short-circuits to the empty string; otherwise the Intl collaborator's
rendering is returned. -/
def formatLocalTime (env : JsEnv) (isoTime : String) : String :=
  if isoTime = "" then "" else env.intlOsloFormat isoTime

/-- The status phrase table (the statusMap object literal of script.js
lines 93-99). -/
def statusMap (code : String) : Option String :=
  ([("A", "Arrived"), ("C", "Cancelled"), ("D", "Departed"),
    ("E", "New time"), ("N", "New info")].find? (fun p => p.1 == code)).map
    (fun p => p.2)

/-- Embedding of getStatusDescription (script.js lines 91-105): a falsy
code gives the empty string; a mapped code gives its phrase and an
unknown code passes through; the code E with a truthy time is
special-cased to the phrase, a space and the formatted time. -/
def getStatusDescription (env : JsEnv) (code : Option String) (time : Option String) :
    String :=
  match code with
  | none => ""
  | some c =>
    if c = "" then ""
    else if c = "E" ∧ jsTruthy time then
      "New time " ++ formatLocalTime env (time.getD "")
    else (statusMap c).getD c

/-- Embedding of isCargoFlight (script.js lines 107-114): membership of
the (already uppercased) airline code in the static list, or else a
keyword occurring in the lowercased resolved airline name. -/
def isCargoFlight (flight : FlightRecord) (airlinesMap : String → Option String) :
    Bool :=
  if CARGO_CODES.contains flight.airline then true
  else
    let name := jsToLower ((airlinesMap flight.airline).getD "")
    CARGO_KEYWORDS.any (fun kw => jsIncludes name kw)

/-- The lookup the program performs when it resolves a raw feed-supplied
airline code against the directory: parseFlights trims and uppercases
the code (script.js line 51) and the resolved name is read at that key
(script.js lines 112 and 134). -/
def directoryLookup (airlinesMap : String → Option String) (rawCode : String) :
    Option String :=
  airlinesMap (jsToUpper (jsTrim rawCode))

/-! ### Sort, render and orchestrator (script.js lines 116-192) -/

/-- Embedding of Array.prototype.sort with the comparator of script.js
line 180 (the difference of the two Date values): a stable sort by the
numeric key, modelled by mergeSort. -/
def jsSortByKey (key : FlightRecord → Int) (l : List FlightRecord) :
    List FlightRecord :=
  l.mergeSort (fun a b => decide (key a ≤ key b))

/-- One rendered table row (script.js lines 127-154). -/
structure RenderedRow where
  localTime : String
  airlineName : String
  flightId : String
  direction : String
  otherAirport : String
  status : String
deriving DecidableEq, Repr

/-- The cells of the row rendered for one flight (script.js
lines 127-151). -/
def renderRow (env : JsEnv) (airlinesMap : String → Option String)
    (flight : FlightRecord) : RenderedRow :=
  { localTime := formatLocalTime env flight.scheduleTime
    airlineName := jsOrElse (airlinesMap flight.airline) flight.airline
    flightId := flight.flightId
    direction := if flight.arrDep = "A" then "Arrival" else "Departure"
    otherAirport := flight.otherAirport
    status := getStatusDescription env flight.statusCode flight.statusTime }

/-- What the table body shows after an invocation: a list of flight
rows, the single informational placeholder row, or the single error
row. -/
inductive View where
  | table (rows : List RenderedRow)
  | infoRow (message : String)
  | errorRow (message : String)
deriving DecidableEq, Repr

/-- Whether the view is the error row. -/
def View.isError : View → Bool
  | View.errorRow _ => true
  | _ => false

/-- The placeholder message of script.js line 122. -/
def noFlightsMessage : String := "No cargo flights found in the selected timeframe."

/-- Embedding of renderFlights (script.js lines 116-155): an empty list
renders the single placeholder row, otherwise one row per flight. -/
def renderFlights (env : JsEnv) (flights : List FlightRecord)
    (airlinesMap : String → Option String) : View :=
  if flights.isEmpty then View.infoRow noFlightsMessage
  else View.table (flights.map (renderRow env airlinesMap))

/-- The outcome of one fetch call plus reading its body: fetch rejects
only on a transport failure; an HTTP error status still resolves, with
ok false and the error page as body.  The body is represented by the
document DOMParser.parseFromString produces from the body text. -/
inductive FetchResult where
  | failure (message : String)
  | success (ok : Bool) (body : XmlForest)

/-- Embedding of loadFlights (script.js lines 157-192) as a function of
the two fetch outcomes.  If either promise rejects, Promise.all
rejects and the catch block renders the single error row from the
exception's message (when both reject, the model surfaces the flight
request's message; the source takes whichever rejection settles
first).  Note the ok flag of a resolved response is never consulted:
the body text is parsed regardless of the HTTP status. -/
def loadFlights (env : JsEnv) (flightRes airlinesRes : FetchResult) : View :=
  match flightRes, airlinesRes with
  | FetchResult.failure m, _ => View.errorRow ("Error fetching flight data: " ++ m)
  | _, FetchResult.failure m => View.errorRow ("Error fetching flight data: " ++ m)
  | FetchResult.success _ flightsBody, FetchResult.success _ airlinesBody =>
      let airlinesMap := parseAirlineNames airlinesBody
      let allFlights := parseFlights flightsBody
      let cargoFlights := allFlights.filter (fun fl => isCargoFlight fl airlinesMap)
      let sorted := jsSortByKey (fun fl => env.dateValue fl.scheduleTime) cargoFlights
      renderFlights env sorted airlinesMap

/-- Whether a fetch outcome is a transport failure (a rejected
promise). -/
def FetchResult.isFailure : FetchResult → Bool
  | FetchResult.failure _ => true
  | _ => false

/-- The exception message the catch block sees when at least one fetch
rejects: the model reports the flight request's message when that one
rejected, otherwise the directory request's. -/
def firstFailureMessage : FetchResult → FetchResult → String
  | FetchResult.failure m, _ => m
  | _, FetchResult.failure m => m
  | _, _ => ""

/-! ### Reference formulations and concrete fixtures for the theorems -/

/-- The airline-directory entry a source record contributes, mirrors
the spec's contract for the directory parser: the pair
(uppercase(code), name) when both attributes are present and
non-empty, nothing otherwise. -/
def validEntry (el : XmlNode) : Option (String × String) :=
  match getAttr el "code", getAttr el "name" with
  | some c, some n => if c ≠ "" ∧ n ≠ "" then some (jsToUpper c, n) else none
  | _, _ => none

/-- Last-wins lookup in a list of key-value entries listed in source
order: the value of the last entry carrying the key. -/
def specLookup : List (String × String) → String → Option String
  | [], _ => none
  | e :: rest, k =>
      match specLookup rest k with
      | some v => some v
      | none => if k = e.1 then some e.2 else none

/-- A directory document with a single airlineName record. -/
def airlineDoc (code name : String) : XmlForest :=
  XmlForest.ofList
    [XmlNode.elem "airlineNames" []
      (XmlForest.ofList
        [XmlNode.elem "airlineName" [("code", code), ("name", name)] XmlForest.nil])]

/-- Whether a string is free of leading and trailing (JavaScript)
whitespace. -/
def noEdgeWs (s : String) : Bool :=
  (match s.data.head? with
   | none => true
   | some c => !(jsWs c)) &&
  (match s.data.getLast? with
   | none => true
   | some c => !(jsWs c))

/-- An environment with trivial collaborators, for concrete runs whose
outcome does not consult them. -/
def env0 : JsEnv := { intlOsloFormat := fun _ => "", dateValue := fun _ => 0 }

/-- An environment whose Date value is the timestamp string's length:
a concrete strictly monotone key for exercising the sort. -/
def envLen : JsEnv := { intlOsloFormat := fun _ => "", dateValue := fun s => (s.length : Int) }

/-- The body an HTTP 404 response might carry: a well-formed error
page containing no flight elements. -/
def notFoundPage : XmlForest :=
  XmlForest.ofList
    [XmlNode.elem "html" [] (XmlForest.ofList [XmlNode.text "404 Not Found"])]

/-- A flight element with an airline child but no status
sub-structure. -/
def statuslessFlightElem : XmlNode :=
  XmlNode.elem "flight" []
    (XmlForest.ofList
      [XmlNode.elem "airline" [] (XmlForest.ofList [XmlNode.text "SK"]),
       XmlNode.elem "flight_id" [] (XmlForest.ofList [XmlNode.text "SK4455"])])

/-- A flight element with whitespace around every text sub-field. -/
def paddedFlightElem : XmlNode :=
  XmlNode.elem "flight" []
    (XmlForest.ofList
      [XmlNode.elem "airline" [] (XmlForest.ofList [XmlNode.text "  sk "]),
       XmlNode.elem "flight_id" [] (XmlForest.ofList [XmlNode.text " SK4455  "]),
       XmlNode.elem "schedule_time" []
         (XmlForest.ofList [XmlNode.text " 2024-06-14T08:45:00Z "]),
       XmlNode.elem "arr_dep" [] (XmlForest.ofList [XmlNode.text " A "]),
       XmlNode.elem "airport" [] (XmlForest.ofList [XmlNode.text " DOH "])])

/-- A flight document holding the padded flight element. -/
def paddedFlightDoc : XmlForest :=
  XmlForest.ofList
    [XmlNode.elem "airport" []
      (XmlForest.ofList
        [XmlNode.elem "flights" [] (XmlForest.ofList [paddedFlightElem])])]

/-! ### C2: the flight parser cannot fail -/

/-- C2 counterexample: on an unparseable payload (DOMParser yields a
parsererror document) the flight parser does not signal a
MalformedFeedError - no failure path exists in its body - but silently
returns the empty flight list.  This refutes the claim that an
unparseable outer payload makes the parser fail. -/
theorem unparseable_payload_returns_silently :
    parseFlightsCall parseErrorDoc = Except.ok [] ∧ parseFlights parseErrorDoc = [] :=
  ⟨rfl, rfl⟩

/-- C2 amended: the flight parser never fails at all.  Missing optional
sub-fields are tolerated - every flight element of the document yields
exactly one record - and the call always returns normally (the
Except-valued view of the call is ok on every document); an
unparseable payload merely contributes no flight elements. -/
theorem flight_parser_never_fails (doc : XmlForest) :
    parseFlightsCall doc = Except.ok (parseFlights doc) ∧
      (parseFlights doc).length = (docElemsByTag doc "flight").length :=
  ⟨rfl, List.length_map _ _⟩

/-! ### C3: status E with absent status time -/

/-- C3 counterexample: with statusCode E (the NewTime code) and an
absent statusTime the script renders the phrase from the status table,
which is the string New time with no trailing space: the claimed
dangling-space rendering differs from it. -/
theorem newTime_without_time_counterexample :
    getStatusDescription env0 (some "E") none = "New time" ∧
      "New time" ≠ "New time " := by
  exact ⟨rfl, by decide⟩

/-- C3 amended: when statusCode is E and statusTime is absent (null or
empty, hence falsy), the rendered status description is exactly the
phrase New time, with no trailing space and no timestamp suffix. -/
theorem newTime_without_time_plain (env : JsEnv) (time : Option String)
    (h : jsTruthy time = false) :
    getStatusDescription env (some "E") time = "New time" := by
  simp [getStatusDescription, statusMap, h]

/-- Witness for the amended C3 at the concrete input of a null
statusTime. -/
theorem newTime_without_time_plain_witness :
    getStatusDescription env0 (some "E") none = "New time" :=
  newTime_without_time_plain env0 none rfl

/-! ### C4: static cargo codes -/

/-- C4: a flight whose airline code is in the static cargo-code list is
classified as cargo whatever the directory holds, the empty directory
included (the directory argument is arbitrary). -/
theorem static_code_forces_cargo (flight : FlightRecord)
    (airlinesMap : String → Option String)
    (h : flight.airline ∈ CARGO_CODES) :
    isCargoFlight flight airlinesMap = true := by
  simp [isCargoFlight, List.contains, List.elem_eq_mem, h]

/-- Witness for C4: the code UPS against the empty directory. -/
theorem static_code_forces_cargo_witness :
    isCargoFlight ⟨"UPS", "", "", "", "", none, none⟩ (fun _ => none) = true :=
  static_code_forces_cargo ⟨"UPS", "", "", "", "", none, none⟩ (fun _ => none)
    (by decide)

/-! ### C8: flights without a status sub-structure -/

/-- C8: a flight element with no status descendant parses to a record
whose statusCode and statusTime are both null, the record is produced
(parsing raises nothing and skips nothing), and its formatted status
description is the empty string. -/
theorem missing_status_yields_empty (env : JsEnv) (doc : XmlForest) (f : XmlNode)
    (hmem : f ∈ docElemsByTag doc "flight")
    (hstatus : childElemsByTag f "status" = []) :
    parseFlightElem f ∈ parseFlights doc ∧
      (parseFlightElem f).statusCode = none ∧
      (parseFlightElem f).statusTime = none ∧
      getStatusDescription env (parseFlightElem f).statusCode
        (parseFlightElem f).statusTime = "" := by
  have hc : (parseFlightElem f).statusCode = none := by
    simp [parseFlightElem, hstatus]
  have ht : (parseFlightElem f).statusTime = none := by
    simp [parseFlightElem, hstatus]
  refine ⟨List.mem_map_of_mem _ hmem, hc, ht, ?_⟩
  rw [hc, ht]
  rfl

/-- Witness for C8: a concrete flight element carrying airline and
flight_id children but no status sub-structure. -/
theorem missing_status_yields_empty_witness :
    parseFlightElem statuslessFlightElem ∈
        parseFlights (XmlForest.ofList [statuslessFlightElem]) ∧
      (parseFlightElem statuslessFlightElem).statusCode = none ∧
      (parseFlightElem statuslessFlightElem).statusTime = none ∧
      getStatusDescription env0 (parseFlightElem statuslessFlightElem).statusCode
        (parseFlightElem statuslessFlightElem).statusTime = "" :=
  missing_status_yields_empty env0 (XmlForest.ofList [statuslessFlightElem])
    statuslessFlightElem (List.mem_cons_self _ _) rfl

/-! ### C1: failure handling of the orchestrator -/

/-- C1 counterexample: a non-success HTTP response does not abort the
pipeline.  With the flight request resolving to an ok-false response
whose body is an error page and the directory request resolving
normally, loadFlights renders the informational placeholder row - the
body was parsed, filtered, sorted and rendered - and no error row is
shown, against the claim that a non-success response surfaces an
error. -/
theorem http_error_not_detected :
    loadFlights env0 (FetchResult.success false notFoundPage)
        (FetchResult.success true XmlForest.nil) = View.infoRow noFlightsMessage ∧
      View.isError
        (loadFlights env0 (FetchResult.success false notFoundPage)
          (FetchResult.success true XmlForest.nil)) = false := by
  have h : loadFlights env0 (FetchResult.success false notFoundPage)
      (FetchResult.success true XmlForest.nil) = View.infoRow noFlightsMessage := by
    show renderFlights env0
        (jsSortByKey (fun fl => env0.dateValue fl.scheduleTime) [])
        (parseAirlineNames XmlForest.nil) = View.infoRow noFlightsMessage
    rw [jsSortByKey, List.mergeSort_nil]
    rfl
  refine ⟨h, ?_⟩
  rw [h]
  rfl

/-- C1 amended: only a transport failure of either request (a rejected
fetch promise) aborts the pipeline; it then surfaces the single error
row built from the exception message, with no table rendered.  (A
non-success HTTP response is not detected - see the counterexample -
and a parse step cannot fail.) -/
theorem fetch_failure_renders_single_error (env : JsEnv)
    (flightRes airlinesRes : FetchResult)
    (h : flightRes.isFailure = true ∨ airlinesRes.isFailure = true) :
    loadFlights env flightRes airlinesRes =
      View.errorRow ("Error fetching flight data: " ++
        firstFailureMessage flightRes airlinesRes) := by
  cases flightRes with
  | failure m => cases airlinesRes <;> rfl
  | success ok body =>
    cases airlinesRes with
    | failure m2 => rfl
    | success ok2 body2 =>
        rcases h with h | h <;> simp [FetchResult.isFailure] at h

/-- Witness for the amended C1: a transport failure of the flight
request renders the single error row with its message. -/
theorem fetch_failure_renders_single_error_witness :
    loadFlights env0 (FetchResult.failure "network down")
        (FetchResult.success true XmlForest.nil) =
      View.errorRow ("Error fetching flight data: " ++
        firstFailureMessage (FetchResult.failure "network down")
          (FetchResult.success true XmlForest.nil)) :=
  fetch_failure_renders_single_error env0 (FetchResult.failure "network down")
    (FetchResult.success true XmlForest.nil) (Or.inl rfl)

/-! ### C6 and C9: the airline directory -/

/-- Normal form of one parseAirlineNames iteration: it binds exactly
the entry validEntry extracts, when there is one. -/
theorem insertAirline_eq (m : String → Option String) (el : XmlNode) :
    insertAirline m el = fun k =>
      match validEntry el with
      | some e => if k = e.1 then some e.2 else m k
      | none => m k := by
  unfold insertAirline validEntry
  rcases getAttr el "code" with _ | c
  · rfl
  rcases getAttr el "name" with _ | n
  · rfl
  by_cases h : c ≠ "" ∧ n ≠ ""
  · simp [h]
  · simp [h]

/-- The parseAirlineNames fold reads, at each key, the last valid
entry of the element list, falling back to the initial map. -/
theorem parseAirlineNames_foldl (els : List XmlNode) (m : String → Option String)
    (k : String) :
    (els.foldl insertAirline m) k =
      match specLookup (els.filterMap validEntry) k with
      | some v => some v
      | none => m k := by
  induction els generalizing m with
  | nil => rfl
  | cons el rest ih =>
    rw [List.foldl_cons, List.filterMap_cons, insertAirline_eq]
    cases hv : validEntry el with
    | none => rw [ih]
    | some e =>
      rw [ih]
      cases hS : specLookup (rest.filterMap validEntry) k with
      | none =>
          simp only [hS, specLookup]
          by_cases hk : k = e.1 <;> simp [hk]
      | some v => simp [hS, specLookup]

/-- C9: parseAirlineNames agrees, at every key, with the last-wins
lookup over the valid entries of the source records: a record with a
non-empty code and a non-empty name contributes the pair
(uppercase(code), name) - validEntry - records missing (or empty in)
either attribute contribute nothing and raise nothing, and of several
records sharing an uppercased code the last one determines the stored
name. -/
theorem airline_directory_characterization (doc : XmlForest) (k : String) :
    parseAirlineNames doc k =
      specLookup ((docElemsByTag doc "airlineName").filterMap validEntry) k := by
  rw [parseAirlineNames, parseAirlineNames_foldl]
  cases h : specLookup ((docElemsByTag doc "airlineName").filterMap validEntry) k <;>
    simp [h]

/-- C6: directory lookups are case-insensitive through the program's
lookup path.  An entry parsed from a record with code c (any letter
case) is stored under uppercase(c), and a query for any raw code whose
trimmed, uppercased form agrees with uppercase(c) - the normalization
parseFlights applies to every airline code before the map is read -
retrieves the entry's name. -/
theorem directory_lookup_case_insensitive (c n q : String) (hc : c ≠ "") (hn : n ≠ "")
    (hq : jsToUpper (jsTrim q) = jsToUpper c) :
    directoryLookup (parseAirlineNames (airlineDoc c n)) q = some n := by
  have hmap : parseAirlineNames (airlineDoc c n) =
      fun k => if k = jsToUpper c then some n else none := by
    show insertAirline (fun _ => none)
        (XmlNode.elem "airlineName" [("code", c), ("name", n)] XmlForest.nil) =
      fun k => if k = jsToUpper c then some n else none
    rw [insertAirline_eq]
    simp [validEntry, getAttr, hc, hn]
  simp [directoryLookup, hmap, hq]

/-- Witness for C6 in both directions: an entry parsed with a
lowercase code retrieved by an uppercase query, and an entry parsed
with an uppercase code retrieved by a lowercase query. -/
theorem directory_lookup_case_insensitive_witness :
    directoryLookup (parseAirlineNames (airlineDoc "sk" "Scandinavian Airlines")) "SK" =
        some "Scandinavian Airlines" ∧
      directoryLookup (parseAirlineNames (airlineDoc "SK" "Scandinavian Airlines")) "sk" =
        some "Scandinavian Airlines" :=
  ⟨directory_lookup_case_insensitive "sk" "Scandinavian Airlines" "SK" (by decide)
      (by decide) (by decide),
    directory_lookup_case_insensitive "SK" "Scandinavian Airlines" "sk" (by decide)
      (by decide) (by decide)⟩

/-! ### C5: keyword classification -/

/-- C5: the classifier returns true whenever the display name resolved
from the directory contains some configured keyword as a substring in
any letter case (an occurrence whose lowercasing is the keyword), and
false when the airline code is outside the static list and no keyword
occurs in the lowercased resolved name. -/
theorem keyword_match_classification (flight : FlightRecord)
    (airlinesMap : String → Option String) :
    (∀ occ kw, kw ∈ CARGO_KEYWORDS → jsToLower occ = kw →
        occ.data <:+: ((airlinesMap flight.airline).getD "").data →
        isCargoFlight flight airlinesMap = true) ∧
      (flight.airline ∉ CARGO_CODES →
        (∀ kw ∈ CARGO_KEYWORDS,
          ¬ kw.data <:+: (jsToLower ((airlinesMap flight.airline).getD "")).data) →
        isCargoFlight flight airlinesMap = false) := by
  constructor
  · intro occ kw hkw hlow hinfix
    unfold isCargoFlight
    split
    · rfl
    · show CARGO_KEYWORDS.any
          (fun kw => jsIncludes (jsToLower ((airlinesMap flight.airline).getD "")) kw) =
        true
      refine List.any_eq_true.mpr ⟨kw, hkw, ?_⟩
      subst hlow
      exact decide_eq_true (List.IsInfix.map jsCharLower hinfix)
  · intro hcode hnone
    unfold isCargoFlight
    split
    · rename_i h
      simp only [List.contains, List.elem_eq_mem, decide_eq_true_eq] at h
      exact absurd h hcode
    · show CARGO_KEYWORDS.any
          (fun kw => jsIncludes (jsToLower ((airlinesMap flight.airline).getD "")) kw) =
        false
      refine List.any_eq_false.mpr ?_
      intro kw hkw
      simp only [jsIncludes, decide_eq_true_eq]
      exact hnone kw hkw

/-- Witness for C5: the resolved name Qatar Airways Cargo (keyword
cargo occurring as Cargo) classifies as cargo although the code XY is
not in the static list; and the code ZZ with an empty directory
classifies as non-cargo. -/
theorem keyword_match_classification_witness :
    isCargoFlight ⟨"XY", "", "", "", "", none, none⟩
        (fun k => if k = "XY" then some "Qatar Airways Cargo" else none) = true ∧
      isCargoFlight ⟨"ZZ", "", "", "", "", none, none⟩ (fun _ => none) = false :=
  ⟨(keyword_match_classification ⟨"XY", "", "", "", "", none, none⟩
        (fun k => if k = "XY" then some "Qatar Airways Cargo" else none)).1
      "Cargo" "cargo" (by decide) (by decide) (by decide),
    (keyword_match_classification ⟨"ZZ", "", "", "", "", none, none⟩
        (fun _ => none)).2 (by decide) (by decide)⟩

/-! ### C10: trimming of parsed text fields -/

/-- The head of a dropWhile result does not satisfy the dropped
predicate. -/
theorem jsWs_head_dropWhile {l : List Char} {c : Char}
    (h : (l.dropWhile jsWs).head? = some c) : jsWs c = false := by
  have hx := List.head?_dropWhile_not jsWs l
  rw [h] at hx
  exact hx

/-- dropWhile only removes a prefix: when the result is non-empty its
last element is the input's last element. -/
theorem getLast?_dropWhile_of_ne_nil {p : Char → Bool} {l : List Char}
    (h : l.dropWhile p ≠ []) : (l.dropWhile p).getLast? = l.getLast? := by
  induction l with
  | nil => exact absurd rfl h
  | cons x xs ih =>
    rw [List.dropWhile_cons] at h ⊢
    by_cases hp : p x
    · simp only [hp, if_true] at h ⊢
      rw [ih h]
      have hxs : xs ≠ [] := by
        intro e
        rw [e] at h
        exact h rfl
      cases xs with
      | nil => exact absurd rfl hxs
      | cons b l2 => rw [List.getLast?_cons_cons]
    · simp [hp]

/-- The result of the trim model carries no whitespace at either
end. -/
theorem noEdgeWs_jsTrim (s : String) : noEdgeWs (jsTrim s) = true := by
  have hhead : ∀ c : Char,
      (((s.data.dropWhile jsWs).reverse.dropWhile jsWs).reverse).head? = some c →
      jsWs c = false := by
    intro c h
    rw [List.head?_reverse] at h
    have hne : (s.data.dropWhile jsWs).reverse.dropWhile jsWs ≠ [] := by
      intro e
      rw [e] at h
      exact Option.noConfusion h
    rw [getLast?_dropWhile_of_ne_nil hne, List.getLast?_reverse] at h
    exact jsWs_head_dropWhile h
  have hlast : ∀ c : Char,
      (((s.data.dropWhile jsWs).reverse.dropWhile jsWs).reverse).getLast? = some c →
      jsWs c = false := by
    intro c h
    rw [List.getLast?_reverse] at h
    exact jsWs_head_dropWhile h
  unfold noEdgeWs
  rw [Bool.and_eq_true]
  constructor
  · cases hh : (jsTrim s).data.head? with
    | none => rfl
    | some c => simp [hhead c hh]
  · cases hh : (jsTrim s).data.getLast? with
    | none => rfl
    | some c => simp [hlast c hh]

/-- Uppercasing a character does not change whether it is
whitespace. -/
theorem jsWs_jsCharUpper (c : Char) : jsWs (jsCharUpper c) = jsWs c := by
  unfold jsCharUpper
  cases hf : asciiCasePairs.find? (fun p => p.1 == c) with
  | none => rfl
  | some p =>
    have hmem : p ∈ asciiCasePairs := List.mem_of_find?_eq_some hf
    have hc : p.1 = c := by simpa using List.find?_some hf
    have hpair : ∀ q ∈ asciiCasePairs, jsWs q.1 = false ∧ jsWs q.2 = false := by decide
    rcases hpair p hmem with ⟨h1, h2⟩
    show jsWs p.2 = jsWs c
    rw [← hc, h1, h2]

/-- Uppercasing preserves freedom from edge whitespace. -/
theorem noEdgeWs_jsToUpper {s : String} (h : noEdgeWs s = true) :
    noEdgeWs (jsToUpper s) = true := by
  unfold noEdgeWs at h ⊢
  rw [Bool.and_eq_true] at h ⊢
  obtain ⟨h1, h2⟩ := h
  constructor
  · rw [show (jsToUpper s).data = s.data.map jsCharUpper from rfl, List.head?_map]
    cases hh : s.data.head? with
    | none => rfl
    | some c =>
      rw [hh] at h1
      simpa [jsWs_jsCharUpper] using h1
  · rw [show (jsToUpper s).data = s.data.map jsCharUpper from rfl, List.getLast?_map]
    cases hh : s.data.getLast? with
    | none => rfl
    | some c =>
      rw [hh] at h2
      simpa [jsWs_jsCharUpper] using h2

/-- Every getText extraction is trimmed or empty, hence free of edge
whitespace. -/
theorem noEdgeWs_getText (f : XmlNode) (tag : String) :
    noEdgeWs (getText f tag) = true := by
  unfold getText
  cases (childElemsByTag f tag).head? with
  | none => rfl
  | some el => exact noEdgeWs_jsTrim (textContentN el)

/-- C10: every text sub-field the flight parser extracts - airline,
flightId, scheduleTime, direction and remote airport - is stripped of
leading and trailing whitespace, so no parsed record's text field
carries surrounding whitespace from the feed. -/
theorem parsed_fields_carry_no_edge_whitespace (doc : XmlForest) (r : FlightRecord)
    (h : r ∈ parseFlights doc) :
    noEdgeWs r.airline = true ∧ noEdgeWs r.flightId = true ∧
      noEdgeWs r.scheduleTime = true ∧ noEdgeWs r.arrDep = true ∧
      noEdgeWs r.otherAirport = true := by
  obtain ⟨f, hf, rfl⟩ := List.mem_map.mp h
  exact ⟨noEdgeWs_jsToUpper (noEdgeWs_getText f "airline"),
    noEdgeWs_getText f "flight_id", noEdgeWs_getText f "schedule_time",
    noEdgeWs_getText f "arr_dep", noEdgeWs_getText f "airport"⟩

/-- Witness for C10: the record parsed from a flight element padded
with whitespace in every sub-field has whitespace-free fields. -/
theorem parsed_fields_carry_no_edge_whitespace_witness :
    noEdgeWs (parseFlightElem paddedFlightElem).airline = true ∧
      noEdgeWs (parseFlightElem paddedFlightElem).flightId = true ∧
      noEdgeWs (parseFlightElem paddedFlightElem).scheduleTime = true ∧
      noEdgeWs (parseFlightElem paddedFlightElem).arrDep = true ∧
      noEdgeWs (parseFlightElem paddedFlightElem).otherAirport = true :=
  parsed_fields_carry_no_edge_whitespace paddedFlightDoc
    (parseFlightElem paddedFlightElem) (List.mem_cons_self _ _)

/-! ### C7: the sort of the filtered flights -/

/-- Transitivity of the comparator-induced order of script.js
line 180. -/
theorem sortLe_trans (key : FlightRecord → Int) :
    ∀ a b c : FlightRecord, decide (key a ≤ key b) → decide (key b ≤ key c) →
      decide (key a ≤ key c) := by
  intro a b c h1 h2
  simp only [decide_eq_true_eq] at h1 h2 ⊢
  exact le_trans h1 h2

/-- Totality of the comparator-induced order. -/
theorem sortLe_total (key : FlightRecord → Int) :
    ∀ a b : FlightRecord, decide (key a ≤ key b) || decide (key b ≤ key a) := by
  intro a b
  rcases le_total (key a) (key b) with h | h <;> simp [h]

/-- Three flights with strictly increasing keys come out of the sort
in key order, from any input order. -/
theorem jsSortByKey_three (key : FlightRecord → Int) (f1 f2 f3 : FlightRecord)
    (l : List FlightRecord) (h12 : key f1 < key f2) (h23 : key f2 < key f3)
    (hperm : l.Perm [f1, f2, f3]) :
    jsSortByKey key l = [f1, f2, f3] := by
  unfold jsSortByKey
  have hsorted := List.sorted_mergeSort (sortLe_trans key) (sortLe_total key) l
  have hpermOut : (l.mergeSort (fun a b => decide (key a ≤ key b))).Perm [f1, f2, f3] :=
    (List.mergeSort_perm l _).trans hperm
  have hp2 : ([f1, f2, f3]).Pairwise
      (fun a b : FlightRecord => decide (key a ≤ key b) = true) := by
    refine List.Pairwise.cons ?_ (List.Pairwise.cons ?_
      (List.Pairwise.cons (fun b hb => absurd hb (List.not_mem_nil _))
        List.Pairwise.nil))
    · intro b hb
      rcases List.mem_cons.mp hb with rfl | hb2
      · exact decide_eq_true (le_of_lt h12)
      · rcases List.mem_singleton.mp hb2 with rfl
        exact decide_eq_true (le_of_lt (lt_trans h12 h23))
    · intro b hb
      rcases List.mem_singleton.mp hb with rfl
      exact decide_eq_true (le_of_lt h23)
  refine List.Perm.eq_of_sorted ?_ hsorted hp2 hpermOut
  intro a b ha hb hab hba
  have ha2 : a ∈ [f1, f2, f3] := hpermOut.subset ha
  simp only [List.mem_cons, List.not_mem_nil, or_false] at ha2 hb
  simp only [decide_eq_true_eq] at hab hba
  rcases ha2 with rfl | rfl | rfl <;> rcases hb with rfl | rfl | rfl <;>
    first | rfl | omega

/-- Elements agreeing on the key come out of the sort in their input
order: the sublist of flights satisfying any key-constant predicate is
unchanged. -/
theorem jsSortByKey_filter_fixed (key : FlightRecord → Int) (p : FlightRecord → Bool)
    (hp : ∀ a b, p a = true → p b = true → key a = key b) (l : List FlightRecord) :
    (jsSortByKey key l).filter p = l.filter p := by
  unfold jsSortByKey
  have hpair : (l.filter p).Pairwise
      (fun a b : FlightRecord => decide (key a ≤ key b) = true) := by
    apply List.pairwise_of_forall_mem_list
    intro a ha b hb
    rw [List.mem_filter] at ha hb
    exact decide_eq_true (le_of_eq (hp a b ha.2 hb.2))
  have hsub : List.Sublist (l.filter p) (l.mergeSort (fun a b => decide (key a ≤ key b))) :=
    List.sublist_mergeSort (sortLe_trans key) (sortLe_total key) hpair
      (List.filter_sublist l)
  have h0 : (l.filter p).filter p = l.filter p :=
    List.filter_eq_self.mpr (fun a ha => (List.mem_filter.mp ha).2)
  have h1 : List.Sublist (l.filter p)
      ((l.mergeSort (fun a b => decide (key a ≤ key b))).filter p) := by
    rw [← h0]
    exact hsub.filter p
  have hperm : ((l.mergeSort (fun a b => decide (key a ≤ key b))).filter p).Perm
      (l.filter p) := (List.mergeSort_perm l _).filter p
  exact (List.Sublist.eq_of_length h1 hperm.length_eq.symm).symm

/-- C7: the sort of script.js line 180 - a stable sort under the
comparator subtracting the two Date values of scheduleTime - is
ascending and stable: three flights with strictly increasing absolute
timestamps come out in timestamp order from any input order, and
flights sharing a scheduleTime keep their relative input order (the
sublist at any fixed scheduleTime is unchanged). -/
theorem sort_ascending_and_stable (env : JsEnv) :
    (∀ (f1 f2 f3 : FlightRecord) (l : List FlightRecord),
        env.dateValue f1.scheduleTime < env.dateValue f2.scheduleTime →
        env.dateValue f2.scheduleTime < env.dateValue f3.scheduleTime →
        l.Perm [f1, f2, f3] →
        jsSortByKey (fun fl => env.dateValue fl.scheduleTime) l = [f1, f2, f3]) ∧
      (∀ (l : List FlightRecord) (t : String),
        (jsSortByKey (fun fl => env.dateValue fl.scheduleTime) l).filter
            (fun fl => fl.scheduleTime == t) =
          l.filter (fun fl => fl.scheduleTime == t)) := by
  constructor
  · intro f1 f2 f3 l h12 h23 hperm
    exact jsSortByKey_three _ f1 f2 f3 l h12 h23 hperm
  · intro l t
    apply jsSortByKey_filter_fixed
    intro a b ha hb
    have ha2 : a.scheduleTime = t := by simpa using ha
    have hb2 : b.scheduleTime = t := by simpa using hb
    rw [ha2, hb2]

/-- Witness for C7 at a concrete environment (Date value = string
length) and concrete flights with timestamps of lengths 1 < 2 < 3 fed
in scrambled order. -/
theorem sort_ascending_and_stable_witness :
    jsSortByKey (fun fl => envLen.dateValue fl.scheduleTime)
        [⟨"", "", "ccc", "", "", none, none⟩, ⟨"", "", "a", "", "", none, none⟩,
          ⟨"", "", "bb", "", "", none, none⟩] =
      [⟨"", "", "a", "", "", none, none⟩, ⟨"", "", "bb", "", "", none, none⟩,
        ⟨"", "", "ccc", "", "", none, none⟩] ∧
      (jsSortByKey (fun fl => envLen.dateValue fl.scheduleTime)
          [⟨"", "", "ccc", "", "", none, none⟩, ⟨"", "", "a", "", "", none, none⟩,
            ⟨"", "", "bb", "", "", none, none⟩]).filter
          (fun fl => fl.scheduleTime == "a") =
        [⟨"", "", "ccc", "", "", none, none⟩, ⟨"", "", "a", "", "", none, none⟩,
          ⟨"", "", "bb", "", "", none, none⟩].filter
          (fun fl => fl.scheduleTime == "a") :=
  ⟨(sort_ascending_and_stable envLen).1 _ _ _ _ (by decide) (by decide) (by decide),
    (sort_ascending_and_stable envLen).2 _ "a"⟩
